import Mathlib

/-!
Shallow embedding of the SOCKS6 core of the `socksx` repository.

Byte streams are modelled as `List Nat` (each element a byte value);
asynchronous `read_exact` calls become explicit list splitting, and a
short read is an I/O error.  Rust `u16` arithmetic is modelled on `Nat`
with the overflowing casts written as `% 65536`, and the debug-mode
overflow/underflow panics of `u16` addition and subtraction made
explicit as dedicated result constructors.

Sources embedded:
  * `src/src/socks6.rs`        — `SocksOption::as_socks_bytes`,
    `Socks6Client::connect` (credential check, operation-reply binding
    address decoding), `Socks6Handler::handle_request` (destination
    address decoding, raw initial-data-length extraction, inline reply).
  * `src/socksx/src/socks6/mod.rs` — `read_options`, the
    initial-data-length projection of `read_request`,
    `Socks6Request::chain`, `write_reply`.

The typed option constructors (`options.rs`), `SocksChain`
(`chain.rs`) and `ProxyAddress` parsing (`addresses.rs`) are not part
of the given sources; those few definitions are modelled from the
specification and carry a doc comment saying so.
-/

/-- Big-endian byte pair of a `u16` value, as produced by Rust's
`u16::to_be_bytes`; for an argument that exceeds `u16` range this is the
byte pair of the truncated (`as u16`) value. -/
def be16 (n : Nat) : List Nat :=
  [n / 256 % 256, n % 256]

/-- The big-endian recombination `((hi as u16) << 8) | lo` used throughout
the source.  For byte-range inputs (`lo < 256`) the bitwise or coincides
with addition, which is how it is written here. -/
def fromBe16 (hi lo : Nat) : Nat :=
  hi * 256 + lo

/-- Models `stream.read_exact(&mut buf)` with `buf.len() = n` on a stream
whose pending bytes are `s`: returns the bytes read and the rest of the
stream, or `none` when the stream is too short (an I/O error). -/
def readExact (n : Nat) (s : List Nat) : Option (List Nat × List Nat) :=
  if n ≤ s.length then some (s.take n, s.drop n) else none

/-- `SocksOption` of `src/src/socks6.rs`: a raw kind plus data bytes.
The Rust `kind` field is a `u16`; theorems that need it in range carry
an explicit `kind < 65536` hypothesis. -/
structure SocksOption where
  kind : Nat
  data : List Nat
  deriving DecidableEq

/-- `SocksOption::as_socks_bytes` (src/src/socks6.rs lines 24-38):
`option_length = data.len() + 2 + 2`, `padding_bytes = vec![0; 4 - (option_length % 4)]`,
`total_length = (option_length + padding_bytes.len()) as u16`, then
kind, total_length (big-endian), data, padding. -/
def SocksOption.asSocksBytes (o : SocksOption) : List Nat :=
  let optionLength := o.data.length + 2 + 2
  let paddingBytes : List Nat := List.replicate (4 - optionLength % 4) 0
  let totalLength := (optionLength + paddingBytes.length) % 65536
  be16 o.kind ++ be16 totalLength ++ o.data ++ paddingBytes

/-- The decoded option type of `socksx::socks6::options::SocksOption`
(the enum dispatched to in `read_options`). -/
inductive Socks6Option where
  | authMethodAdvertisement (initialDataLength : Nat) (methods : List Nat)
  | authMethodSelection (method : Nat)
  | metadata (key : Nat) (value : List Nat)
  | unrecognized (kind : Nat) (data : List Nat)
  deriving DecidableEq

/-- Modelled from the spec: `AuthMethodAdvertisementOption::from_socks_bytes`
(`options.rs`, not among the given sources).  Body is
`[initial_data_len_hi, initial_data_len_lo, methods…]`; a body shorter
than two bytes cannot carry the length and is a decode error. -/
def authMethodAdvFromSocksBytes (data : List Nat) : Option Socks6Option :=
  match data with
  | hi :: lo :: methods => some (.authMethodAdvertisement (fromBe16 hi lo) methods)
  | _ => none

/-- Modelled from the spec: `AuthMethodSelectionOption::from_socks_bytes`
(`options.rs`, not among the given sources).  Carries the single chosen
method; an empty body is a decode error. -/
def authMethodSelFromSocksBytes (data : List Nat) : Option Socks6Option :=
  match data with
  | m :: _ => some (.authMethodSelection m)
  | _ => none

/-- Modelled from the spec: `MetadataOption::from_socks_bytes`
(`options.rs`, not among the given sources).  Body is
`[key_hi, key_lo, value_bytes…]`; the value is kept as raw bytes here
(its UTF-8 reading is not modelled). -/
def metadataFromSocksBytes (data : List Nat) : Option Socks6Option :=
  match data with
  | hi :: lo :: value => some (.metadata (fromBe16 hi lo) value)
  | _ => none

/-- The kind dispatch of `read_options` (mod.rs lines 198-203); the Rust
`match` on the kind literal is written as an if-chain.  `none` models a
`from_socks_bytes` failure propagated by `?`. -/
def decodeOption (kind : Nat) (data : List Nat) : Option Socks6Option :=
  if kind = 0x0002 then authMethodAdvFromSocksBytes data
  else if kind = 0x0003 then authMethodSelFromSocksBytes data
  else if kind = 0xFDE8 then metadataFromSocksBytes data
  else some (.unrecognized kind data)

/-- Result of running a fallible read loop: success, an I/O error from
`read_exact`, a `from_socks_bytes` error propagated by `?`, or one of the
two debug-mode `u16` arithmetic panics in `read_options`. -/
inductive RunResult (α : Type) where
  | ok : α → RunResult α
  | ioError : RunResult α
  | decodeError : RunResult α
  | underflowPanic : RunResult α
  | overflowPanic : RunResult α
  deriving DecidableEq

/-- The `while options_bytes_read < options_length` loop of
`read_options` (mod.rs lines 186-207).  Each iteration reads a 4-byte
header, computes `length - 4` (u16 subtraction: `underflowPanic` when
`length < 4`), reads that many data bytes, dispatches on the kind, and
adds `length` to the bytes-read counter (u16 addition: `overflowPanic`
past 65535).  On exit it returns the decoded options together with the
unread remainder of the stream. -/
def readOptionsLoop (optionsLength bytesRead : Nat) (acc : List Socks6Option)
    (s : List Nat) : RunResult (List Socks6Option × List Nat) :=
  if bytesRead < optionsLength then
    if _h4 : 4 ≤ s.length then
      if fromBe16 (s.getD 2 0) (s.getD 3 0) < 4 then .underflowPanic
      else if fromBe16 (s.getD 2 0) (s.getD 3 0) - 4 ≤ (s.drop 4).length then
        match decodeOption (fromBe16 (s.getD 0 0) (s.getD 1 0))
            ((s.drop 4).take (fromBe16 (s.getD 2 0) (s.getD 3 0) - 4)) with
        | none => .decodeError
        | some option =>
          if bytesRead + fromBe16 (s.getD 2 0) (s.getD 3 0) < 65536 then
            readOptionsLoop optionsLength
              (bytesRead + fromBe16 (s.getD 2 0) (s.getD 3 0))
              (acc ++ [option])
              ((s.drop 4).drop (fromBe16 (s.getD 2 0) (s.getD 3 0) - 4))
          else .overflowPanic
      else .ioError
    else .ioError
  else .ok (acc, s)
termination_by s.length
decreasing_by
  simp only [List.length_drop]
  omega

/-- `read_options` (mod.rs lines 174-210): reads the 2-byte big-endian
options-block length, then runs the option loop. -/
def readOptions (s : List Nat) : RunResult (List Socks6Option × List Nat) :=
  if 2 ≤ s.length then
    readOptionsLoop (fromBe16 (s.getD 0 0) (s.getD 1 0)) 0 [] (s.drop 2)
  else .ioError

/-- The initial-data-length projection of `read_request` (mod.rs lines
145-158): the `for option in &options` loop overwrites
`initial_data_length` with each `AuthMethodAdvertisement` it meets,
starting from 0. -/
def scanInitialDataLength (options : List Socks6Option) : Nat :=
  options.foldl
    (fun acc o =>
      match o with
      | .authMethodAdvertisement idl _ => idl
      | _ => acc)
    0

/-- The raw initial-data-length extraction of
`Socks6Handler::handle_request` (src/src/socks6.rs line 272):
`((reply_options[4] as u16) << 8) | reply_options[5] as u16` over the raw
options block; `none` models the index-out-of-bounds panic on a block
shorter than 6 bytes. -/
def handleRequestInitialDataLength (replyOptions : List Nat) : Option Nat :=
  if 6 ≤ replyOptions.length then
    some (fromBe16 (replyOptions.getD 4 0) (replyOptions.getD 5 0))
  else
    none

/-- `Credentials`: optional username/password byte sequences. -/
structure Credentials where
  username : List Nat
  password : List Nat
  deriving DecidableEq

/-- The two `ensure!` failures of the credential check in
`Socks6Client::connect`. -/
inductive CredentialError where
  | usernameLength
  | passwordLength
  deriving DecidableEq

/-- `Socks6Client` (src/src/socks6.rs lines 41-45): resolved proxy
address (kept as the given string; `resolve_addr` is not modelled) plus
optional credentials. -/
structure Socks6Client where
  proxyAddr : List Char
  credentials : Option Credentials
  deriving DecidableEq

/-- `Socks6Client::new` (src/src/socks6.rs lines 51-61): stores the
resolved address and the credentials.  It performs no credential
validation. -/
def Socks6Client.new (proxyAddr : List Char) (credentials : Option Credentials) :
    Socks6Client :=
  ⟨proxyAddr, credentials⟩

/-- The credential check at the top of `Socks6Client::connect`
(src/src/socks6.rs lines 73-76): `ensure!(username.len() > 255, …)` then
`ensure!(password.len() > 255, …)`; `ensure!` returns the error when its
condition is false. -/
def connectCredentialCheck (credentials : Option Credentials) :
    Except CredentialError Unit :=
  match credentials with
  | none => .ok ()
  | some c =>
    if c.username.length > 255 then
      if c.password.length > 255 then .ok ()
      else .error .passwordLength
    else .error .usernameLength

/-- Result of one of the two address-decoding `match atyp` blocks in
src/src/socks6.rs: address bytes plus remaining stream on success, an
I/O error on a short read, or the `unreachable!()` panic of the
catch-all arm. -/
inductive AddrResult where
  | ok : List Nat → List Nat → AddrResult
  | ioError : AddrResult
  | panicked : AddrResult
  deriving DecidableEq

/-- The destination-address decoding of `Socks6Handler::handle_request`
(src/src/socks6.rs lines 230-254): dispatch on the address-type byte
(IPv4 = 1 reads 4 bytes, IPv6 = 4 reads 16, domain name = 3 reads a
length byte then that many name bytes), with `_ => unreachable!()`.
The Rust `match` is written as an if-chain; the `String::from_utf8`
UTF-8 check on the domain branch is not modelled (the name is kept as
bytes). -/
def handleRequestReadDstAddr (atype : Nat) (s : List Nat) : AddrResult :=
  if atype = 1 then
    match readExact 4 s with
    | some (a, rest) => .ok a rest
    | none => .ioError
  else if atype = 4 then
    match readExact 16 s with
    | some (a, rest) => .ok a rest
    | none => .ioError
  else if atype = 3 then
    match readExact 1 s with
    | some (l, rest) =>
      match readExact (l.getD 0 0) rest with
      | some (name, rest2) => .ok name rest2
      | none => .ioError
    | none => .ioError
  else .panicked

/-- The operation-reply binding-address decoding of
`Socks6Client::connect` (src/src/socks6.rs lines 158-182): same dispatch
on `atyp` with `_ => unreachable!()`; the binding value is kept as raw
address bytes. -/
def connectReadBindingAddr (atyp : Nat) (s : List Nat) : AddrResult :=
  if atyp = 1 then
    match readExact 4 s with
    | some (a, rest) => .ok a rest
    | none => .ioError
  else if atyp = 4 then
    match readExact 16 s with
    | some (a, rest) => .ok a rest
    | none => .ioError
  else if atyp = 3 then
    match readExact 1 s with
    | some (l, rest) =>
      match readExact (l.getD 0 0) rest with
      | some (name, rest2) => .ok name rest2
      | none => .ioError
    | none => .ioError
  else .panicked

/-- `write_reply` (mod.rs lines 284-309): the 12 bytes written for a
reply code — `[SOCKS_VER_6, reply, SOCKS_PADDING, SOCKS_ATYP_IPV4,
0, 0, 0, 0, 0, 0, 0, 0]`. -/
def writeReplyBytes (reply : Nat) : List Nat :=
  [6, reply, 0, 1, 0, 0, 0, 0, 0, 0, 0, 0]

/-- The inline operation reply of `Socks6Handler::handle_request`
(src/src/socks6.rs lines 286-299): `[SOCKS_VER_6, SOCKS_REP_SUCCEEDED,
0, 0, SOCKS_PADDING, SOCKS_ATYP_IPV4, 0, 0, 0, 0, 0, 0]`. -/
def handleRequestReplyBytes : List Nat :=
  [6, 0, 0, 0, 0, 1, 0, 0, 0, 0, 0, 0]

/-- The operation-reply layout the specification claims for the handler
side: version 6, reply code, 2-byte binding port, one padding byte
(value `SOCKS_PADDING = 0`), the atyp byte, a 4-byte binding address,
and a trailing 2-byte options length.  This definition follows the
spec's words, to be compared with `writeReplyBytes` and
`handleRequestReplyBytes`. -/
def claimedOperationReply (code port atyp : Nat) (addr : List Nat) (olen : Nat) :
    List Nat :=
  [6, code] ++ be16 port ++ [0, atyp] ++ addr ++ be16 olen

/-- Models Rust's `str::parse::<usize>()` on a string given as its
character list: a non-empty all-digit string parses to its decimal
value, anything else fails (the optional leading `+` Rust accepts is
not modelled; no theorem here depends on it). -/
def parseUsize (s : List Char) : Option Nat :=
  if s.isEmpty then none
  else if s.all (fun c => c.isDigit) then
    some (s.foldl (fun n c => n * 10 + (c.toNat - 48)) 0)
  else none

/-- `ProxyAddress`: host, port and optional credentials.  Strings are
modelled as character lists. -/
structure ProxyAddress where
  host : List Char
  port : Nat
  credentials : Option (List Char × List Char)
  deriving DecidableEq

/-- Modelled from the spec: `ProxyAddress` is parseable from a string of
form `user:pass@host:port` or `host:port` (the `TryFrom<String>`
implementation lives in the addresses module, not among the given
sources).  The port is a `u16`, so values past 65535 fail. -/
def parseProxyAddress (s : List Char) : Option ProxyAddress :=
  match List.splitOn '@' s with
  | [hostPort] =>
    match List.splitOn ':' hostPort with
    | [host, portStr] =>
      match parseUsize portStr with
      | some port => if port < 65536 then some ⟨host, port, none⟩ else none
      | none => none
    | _ => none
  | [cred, hostPort] =>
    match List.splitOn ':' cred with
    | [user, pass] =>
      match List.splitOn ':' hostPort with
      | [host, portStr] =>
        match parseUsize portStr with
        | some port => if port < 65536 then some ⟨host, port, some (user, pass)⟩ else none
        | none => none
      | _ => none
    | _ => none
  | _ => none

/-- `SocksChain` (chain.rs, not among the given sources): an index into
an ordered list of proxy links, as described by the spec. -/
structure SocksChain where
  index : Nat
  links : List ProxyAddress
  deriving DecidableEq

/-- Modelled from the spec: `SocksChain::detour` splices the static
links into `links` at position `index` (chain.rs is not among the given
sources). -/
def SocksChain.detour (c : SocksChain) (staticLinks : List ProxyAddress) :
    SocksChain :=
  ⟨c.index, c.links.take c.index ++ staticLinks ++ c.links.drop c.index⟩

/-- Lookup in the `metadata: HashMap<u16, String>` of a parsed request,
modelled as an association list with unique keys. -/
def metadataGet (m : List (Nat × List Char)) (k : Nat) : Option (List Char) :=
  (m.find? (fun e => e.1 == k)).map (fun e => e.2)

/-- Result of `Socks6Request::chain`: `ok` for the `Ok` value,
`parseError` for an error propagated by `?` from `str::parse`, and
`panicked` for an `unwrap` panic (absent metadata key or failed
`try_into` on a link string). -/
inductive ChainResult where
  | ok : Option SocksChain → ChainResult
  | parseError : ChainResult
  | panicked : ChainResult
  deriving DecidableEq

/-- The link collection of `Socks6Request::chain` (mod.rs lines 85-89):
`(1000..1000 + length).map(|i| i as u16)` (hence the `% 65536`), looking
each key up with `.unwrap()` and parsing with `.try_into().unwrap()`;
`none` models either unwrap panicking. -/
def collectChainLinks (m : List (Nat × List Char)) (base : Nat) :
    Nat → Option (List ProxyAddress)
  | 0 => some []
  | n + 1 =>
    match metadataGet m (base % 65536) with
    | none => none
    | some s =>
      match parseProxyAddress s with
      | none => none
      | some pa =>
        match collectChainLinks m (base + 1) n with
        | some rest => some (pa :: rest)
        | none => none

/-- The tail of `Socks6Request::chain` (mod.rs lines 96-104): apply the
detour when the static links are non-empty, then return `None` for an
empty chain and `Some(chain)` otherwise. -/
def finishChain (chain : SocksChain) (staticLinks : List ProxyAddress) :
    ChainResult :=
  let chain := if staticLinks.isEmpty then chain else chain.detour staticLinks
  if chain.links.isEmpty then .ok none else .ok (some chain)

/-- `Socks6Request::chain` (mod.rs lines 75-105), as a function of the
request's metadata map: key 999 selects the metadata-driven chain
(length from 999 via `parse()?`, index from 998 via `.unwrap().parse()?`,
links from 1000.. via `collectChainLinks`); otherwise
`SocksChain::default()` (index 0, no links). -/
def socks6RequestChain (metadata : List (Nat × List Char))
    (staticLinks : List ProxyAddress) : ChainResult :=
  match metadataGet metadata 999 with
  | some lengthStr =>
    match parseUsize lengthStr with
    | none => .parseError
    | some length =>
      match metadataGet metadata 998 with
      | none => .panicked
      | some indexStr =>
        match parseUsize indexStr with
        | none => .parseError
        | some index =>
          match collectChainLinks metadata 1000 length with
          | none => .panicked
          | some links => finishChain ⟨index, links⟩ staticLinks
  | none => finishChain ⟨0, []⟩ staticLinks

/-- The precondition under which the `length - 4` subtraction of
`read_options` cannot underflow: every option header the loop actually
reads carries a length field of at least 4.  The recursion mirrors
`readOptionsLoop` step for step and answers `false` exactly when a
header with length below 4 is reached. -/
def headersAtLeast4 (optionsLength bytesRead : Nat) (s : List Nat) : Bool :=
  if bytesRead < optionsLength then
    if _h4 : 4 ≤ s.length then
      if fromBe16 (s.getD 2 0) (s.getD 3 0) < 4 then false
      else if fromBe16 (s.getD 2 0) (s.getD 3 0) - 4 ≤ (s.drop 4).length then
        match decodeOption (fromBe16 (s.getD 0 0) (s.getD 1 0))
            ((s.drop 4).take (fromBe16 (s.getD 2 0) (s.getD 3 0) - 4)) with
        | none => true
        | some _ =>
          if bytesRead + fromBe16 (s.getD 2 0) (s.getD 3 0) < 65536 then
            headersAtLeast4 optionsLength
              (bytesRead + fromBe16 (s.getD 2 0) (s.getD 3 0))
              ((s.drop 4).drop (fromBe16 (s.getD 2 0) (s.getD 3 0) - 4))
          else true
      else true
    else true
  else true
termination_by s.length
decreasing_by
  simp only [List.length_drop]
  omega

/-- Closed form of the option encoding: the padded total length
`optionLength + (4 - optionLength % 4)` equals `4 * (data.len / 4 + 2)`. -/
lemma asSocksBytes_eq (k : Nat) (d : List Nat) :
    SocksOption.asSocksBytes ⟨k, d⟩
      = be16 k ++ be16 (4 * (d.length / 4 + 2) % 65536) ++ d
          ++ List.replicate (4 - (d.length + 4) % 4) 0 := by
  have h : d.length + 2 + 2 + (4 - (d.length + 2 + 2) % 4) = 4 * (d.length / 4 + 2) := by
    omega
  have h2 : 4 - (d.length + 2 + 2) % 4 = 4 - (d.length + 4) % 4 := by
    omega
  simp only [SocksOption.asSocksBytes, List.length_replicate, h, h2]

/-- The emitted byte count of the option encoding. -/
lemma asSocksBytes_length (k : Nat) (d : List Nat) :
    (SocksOption.asSocksBytes ⟨k, d⟩).length = 4 * (d.length / 4 + 2) := by
  rw [asSocksBytes_eq]
  simp only [List.length_append, List.length_replicate, be16, List.length_cons,
    List.length_nil]
  omega

/-- C2 (amended): `as_socks_bytes` emits the kind (2 bytes big-endian),
the total length (2 bytes big-endian), the data bytes, then zero
padding; the padding is always 1..4 bytes (4 when `4 + |data|` is
already a multiple of 4, never 0), so the emitted byte count is
`4 * (|data| / 4 + 2)` — the smallest multiple of 4 strictly greater
than `4 + |data|` — and the length field holds that count reduced
mod 2^16. -/
theorem optionEncodingLayout (o : SocksOption) :
    SocksOption.asSocksBytes o
        = be16 o.kind ++ be16 (4 * (o.data.length / 4 + 2) % 65536)
            ++ o.data ++ List.replicate (4 - (o.data.length + 4) % 4) 0
      ∧ (SocksOption.asSocksBytes o).length = 4 * (o.data.length / 4 + 2)
      ∧ 1 ≤ 4 - (o.data.length + 4) % 4
      ∧ 4 - (o.data.length + 4) % 4 ≤ 4
      ∧ 4 + o.data.length < 4 * (o.data.length / 4 + 2)
      ∧ (SocksOption.asSocksBytes o).length % 4 = 0 := by
  obtain ⟨k, d⟩ := o
  refine ⟨asSocksBytes_eq k d, asSocksBytes_length k d, ?_, ?_, ?_, ?_⟩
  · omega
  · omega
  · omega
  · rw [asSocksBytes_length]
    omega

/-- C2 counterexample: for empty data, `4 + |data| = 4` is already a
multiple of 4, yet the encoding is 8 bytes (4 padding bytes and a
length field of 8), not the claimed `4 + |data| = 4` bytes with no
padding. -/
theorem optionEncodingLayoutCounterexample :
    SocksOption.asSocksBytes ⟨2, []⟩ = [0, 2, 0, 8, 0, 0, 0, 0]
      ∧ (SocksOption.asSocksBytes ⟨2, []⟩).length ≠ 4 := by
  constructor
  · rfl
  · decide

/-- C1 counterexample: the option `{kind = 5, data = []}` (data well
within `2^16 - 8`) encodes to 8 bytes, and decoding them back under the
correctly declared block length yields an option whose data is the four
padding bytes `[0, 0, 0, 0]`, not the original empty data — the decoder
cannot strip the padding, because the length field counts it. -/
theorem optionRoundTripCounterexample :
    SocksOption.asSocksBytes ⟨5, []⟩ = [0, 5, 0, 8, 0, 0, 0, 0]
      ∧ readOptions (be16 (SocksOption.asSocksBytes ⟨5, []⟩).length
            ++ SocksOption.asSocksBytes ⟨5, []⟩)
          = .ok ([.unrecognized 5 [0, 0, 0, 0]], [])
      ∧ ([0, 0, 0, 0] : List Nat) ≠ [] := by
  refine ⟨by rfl, ?_, by decide⟩
  simp [readOptions, readOptionsLoop, decodeOption, fromBe16,
    SocksOption.asSocksBytes, be16]

/-- C1 (amended): for every option whose kind is in `u16` range and not
one of the three typed kinds (0x0002, 0x0003, 0xFDE8 — their decoders
live outside the given sources) and whose data is short enough that the
padded total length still fits a `u16` (`|data| ≤ 2^16 - 9`), decoding
the encoding under the correctly declared block length yields exactly
one option with the same kind whose data is the original data followed
by the 1..4 zero padding bytes; and the encoding length is a multiple
of 4.  (At `|data| = 2^16 - 8`, the bound the claim states, the always
added padding makes the length field wrap to 0.) -/
theorem optionRoundTripPadded (k : Nat) (d : List Nat)
    (hk : k < 65536) (hk2 : k ≠ 2) (hk3 : k ≠ 3) (hkm : k ≠ 0xFDE8)
    (hlen : d.length ≤ 65527) :
    readOptions (be16 (SocksOption.asSocksBytes ⟨k, d⟩).length
          ++ SocksOption.asSocksBytes ⟨k, d⟩)
        = .ok ([.unrecognized k (d ++ List.replicate (4 - (d.length + 4) % 4) 0)], [])
      ∧ (SocksOption.asSocksBytes ⟨k, d⟩).length % 4 = 0 := by
  have hlength := asSocksBytes_length k d
  have ht : 4 * (d.length / 4 + 2) < 65536 := by omega
  have hmod : 4 * (d.length / 4 + 2) % 65536 = 4 * (d.length / 4 + 2) :=
    Nat.mod_eq_of_lt ht
  have hcons : SocksOption.asSocksBytes ⟨k, d⟩
      = k / 256 % 256 :: k % 256
          :: 4 * (d.length / 4 + 2) / 256 % 256 :: 4 * (d.length / 4 + 2) % 256
          :: (d ++ List.replicate (4 - (d.length + 4) % 4) 0) := by
    rw [asSocksBytes_eq, hmod]
    simp [be16]
  have hfrom_t : fromBe16 (4 * (d.length / 4 + 2) / 256 % 256)
      (4 * (d.length / 4 + 2) % 256) = 4 * (d.length / 4 + 2) := by
    simp only [fromBe16]
    omega
  have hfrom_k : fromBe16 (k / 256 % 256) (k % 256) = k := by
    simp only [fromBe16]
    omega
  have htail : (d ++ List.replicate (4 - (d.length + 4) % 4) 0).length
      = 4 * (d.length / 4 + 2) - 4 := by
    simp only [List.length_append, List.length_replicate]
    omega
  constructor
  · rw [hlength, hcons]
    simp only [be16, List.cons_append, List.nil_append, readOptions,
      List.length_cons, List.getD_cons_zero, List.getD_cons_succ,
      List.drop_succ_cons, List.drop_zero]
    rw [if_pos (by omega : (2 : Nat) ≤ _ + 1 + 1)]
    rw [hfrom_t]
    rw [readOptionsLoop.eq_def]
    rw [if_pos (by omega : (0 : Nat) < 4 * (d.length / 4 + 2))]
    simp only [List.length_cons, List.getD_cons_zero, List.getD_cons_succ,
      List.drop_succ_cons, List.drop_zero, hfrom_t, hfrom_k]
    rw [dif_pos (by omega : (4 : Nat) ≤ _ + 1 + 1 + 1 + 1)]
    rw [if_neg (by omega : ¬ 4 * (d.length / 4 + 2) < 4)]
    rw [if_pos (le_of_eq htail.symm)]
    rw [← htail, List.take_length]
    simp only [decodeOption, if_neg hk2, if_neg hk3, if_neg hkm]
    rw [if_pos (by omega : 0 + 4 * (d.length / 4 + 2) < 65536)]
    rw [List.drop_length]
    rw [readOptionsLoop.eq_def]
    rw [if_neg (by omega : ¬ 0 + 4 * (d.length / 4 + 2) < 4 * (d.length / 4 + 2))]
    simp
  · rw [hlength]
    omega

/-- Witness for the amended round-trip at the concrete option
`{kind = 5, data = [1, 2, 3]}`. -/
theorem optionRoundTripPaddedWitness :
    readOptions (be16 (SocksOption.asSocksBytes ⟨5, [1, 2, 3]⟩).length
          ++ SocksOption.asSocksBytes ⟨5, [1, 2, 3]⟩)
        = .ok ([.unrecognized 5 ([1, 2, 3] ++ [0])], [])
      ∧ (SocksOption.asSocksBytes ⟨5, [1, 2, 3]⟩).length % 4 = 0 :=
  optionRoundTripPadded 5 [1, 2, 3] (by decide) (by decide) (by decide)
    (by decide) (by decide)

/-- C3: the credential check on the connect path is inverted.  A valid
1-byte username / 1-byte password pair is rejected (`ensure!` fails),
an overlong 256-byte pair is accepted, and `Socks6Client::new` stores
the credentials without any validation. -/
theorem credentialCheckInverted :
    connectCredentialCheck
        (Socks6Client.new "proxy".toList (some ⟨[97], [98]⟩)).credentials
        = .error .usernameLength
      ∧ connectCredentialCheck (some ⟨List.replicate 256 0, List.replicate 256 0⟩)
          = .ok ()
      ∧ (Socks6Client.new "proxy".toList (some ⟨[97], [98]⟩)).credentials
          = some ⟨[97], [98]⟩ := by
  refine ⟨rfl, ?_, rfl⟩
  simp only [connectCredentialCheck, List.length_replicate]
  norm_num

/-- C4: on an options block whose first option is an unrecognized one
and whose `AuthMethodAdvertisement` (initial-data length 7) comes
second, `Socks6Handler::handle_request` reads bytes 4..6 of the raw
block and obtains 2313, while the typed scan over the decoded options
(as in `read_request`) obtains 7. -/
theorem initialDataLengthFromRawOffsets :
    handleRequestInitialDataLength
        [0, 5, 0, 8, 9, 9, 0, 0, 0, 2, 0, 8, 0, 7, 2, 0] = some 2313
      ∧ readOptions ([0, 16] ++ [0, 5, 0, 8, 9, 9, 0, 0, 0, 2, 0, 8, 0, 7, 2, 0])
          = .ok ([.unrecognized 5 [9, 9, 0, 0], .authMethodAdvertisement 7 [2, 0]], [])
      ∧ scanInitialDataLength
          [.unrecognized 5 [9, 9, 0, 0], .authMethodAdvertisement 7 [2, 0]] = 7
      ∧ (2313 : Nat) ≠ 7 := by
  refine ⟨by decide, ?_, by decide, by decide⟩
  simp [readOptions, readOptionsLoop, decodeOption, authMethodAdvFromSocksBytes,
    fromBe16]

/-- The link collection fails (an `unwrap` panic) exactly when some key
in `base..base+n` is absent or holds an unparseable link string. -/
lemma collectChainLinks_none_iff (m : List (Nat × List Char)) :
    ∀ (n base : Nat),
      collectChainLinks m base n = none
        ↔ ∃ j, j < n
            ∧ (metadataGet m ((base + j) % 65536)).bind parseProxyAddress = none := by
  intro n
  induction n with
  | zero =>
    intro base
    simp [collectChainLinks]
  | succ k ih =>
    intro base
    constructor
    · intro h
      rw [collectChainLinks] at h
      cases hget : metadataGet m (base % 65536) with
      | none =>
        exact ⟨0, by omega, by simp [hget]⟩
      | some s =>
        simp only [hget] at h
        cases hparse : parseProxyAddress s with
        | none =>
          exact ⟨0, by omega, by simp [hget, hparse]⟩
        | some pa =>
          simp only [hparse] at h
          cases hrec : collectChainLinks m (base + 1) k with
          | some rest =>
            simp [hrec] at h
          | none =>
            obtain ⟨j, hj, hfail⟩ := (ih (base + 1)).mp hrec
            refine ⟨j + 1, by omega, ?_⟩
            rw [show base + (j + 1) = base + 1 + j by omega]
            exact hfail
    · rintro ⟨j, hj, hfail⟩
      rw [collectChainLinks]
      cases hget : metadataGet m (base % 65536) with
      | none => simp [hget]
      | some s =>
        cases hparse : parseProxyAddress s with
        | none => simp [hget, hparse]
        | some pa =>
          cases hrec : collectChainLinks m (base + 1) k with
          | none => simp [hget, hparse, hrec]
          | some rest =>
            exfalso
            cases j with
            | zero =>
              rw [Nat.add_zero] at hfail
              rw [hget] at hfail
              simp [hparse] at hfail
            | succ j' =>
              have hnone : collectChainLinks m (base + 1) k = none := by
                refine (ih (base + 1)).mpr ⟨j', by omega, ?_⟩
                rw [show base + 1 + j' = base + (j' + 1) by omega]
                exact hfail
              rw [hnone] at hrec
              exact Option.noConfusion hrec

/-- The link collection succeeds and returns exactly the links whose
strings sit at keys `base..base+n` when each lookup-and-parse
succeeds. -/
lemma collectChainLinks_some (m : List (Nat × List Char)) :
    ∀ (links : List ProxyAddress) (base : Nat),
      (∀ j, j < links.length →
        (metadataGet m ((base + j) % 65536)).bind parseProxyAddress
          = some (links.getD j ⟨[], 0, none⟩)) →
      collectChainLinks m base links.length = some links := by
  intro links
  induction links with
  | nil =>
    intro base _
    rfl
  | cons pa rest ih =>
    intro base h
    have h0 := h 0 (by simp)
    rw [Nat.add_zero] at h0
    simp only [List.getD_cons_zero] at h0
    have hrest : ∀ j, j < rest.length →
        (metadataGet m ((base + 1 + j) % 65536)).bind parseProxyAddress
          = some (rest.getD j ⟨[], 0, none⟩) := by
      intro j hj
      have hh := h (j + 1) (by simp only [List.length_cons]; omega)
      rw [show base + (j + 1) = base + 1 + j by omega] at hh
      simpa using hh
    simp only [List.length_cons]
    rw [collectChainLinks]
    cases hget : metadataGet m (base % 65536) with
    | none =>
      rw [hget] at h0
      exact absurd h0 (by simp)
    | some s =>
      rw [hget] at h0
      simp only [Option.some_bind] at h0
      simp only [hget, h0, ih (base + 1) hrest]

/-- C5 counterexample: metadata containing key 999 (length "1") but no
key 998 makes `Socks6Request::chain` hit `.unwrap()` on `None` — a
panic, not the claimed `ChainConfigInvalid` error return. -/
theorem chainAbsentIndexCounterexample :
    socks6RequestChain [(999, "1".toList)] [] = .panicked
      ∧ ChainResult.panicked ≠ ChainResult.parseError := by
  exact ⟨by decide, by decide⟩

/-- C5 (amended): with key 999 present, `Socks6Request::chain` returns
an error (via `?`) only when the 999 value, or the 998 value when 998
is present, fails to parse as `usize`; when key 998 is absent, or some
link key in `1000..1000+length` is absent or holds an unparseable
string, it panics on `.unwrap()` instead of returning an error. -/
theorem chainErrorModes (m : List (Nat × List Char))
    (staticLinks : List ProxyAddress) (ls : List Char)
    (h999 : metadataGet m 999 = some ls) :
    (parseUsize ls = none → socks6RequestChain m staticLinks = .parseError)
      ∧ (∀ n, parseUsize ls = some n → metadataGet m 998 = none →
          socks6RequestChain m staticLinks = .panicked)
      ∧ (∀ n ixs, parseUsize ls = some n → metadataGet m 998 = some ixs →
          parseUsize ixs = none → socks6RequestChain m staticLinks = .parseError)
      ∧ (∀ n ixs i, parseUsize ls = some n → metadataGet m 998 = some ixs →
          parseUsize ixs = some i →
          (∃ j, j < n
            ∧ (metadataGet m ((1000 + j) % 65536)).bind parseProxyAddress = none) →
          socks6RequestChain m staticLinks = .panicked) := by
  refine ⟨?_, ?_, ?_, ?_⟩
  · intro hparse
    simp only [socks6RequestChain, h999, hparse]
  · intro n hparse h998
    simp only [socks6RequestChain, h999, hparse, h998]
  · intro n ixs hparse h998 hixs
    simp only [socks6RequestChain, h999, hparse, h998, hixs]
  · intro n ixs i hparse h998 hixs hfail
    have hnone : collectChainLinks m 1000 n = none :=
      (collectChainLinks_none_iff m n 1000).mpr hfail
    simp only [socks6RequestChain, h999, hparse, h998, hixs, hnone]

/-- Witness for the amended chain-error-mode theorem at the concrete
metadata `{999 ↦ "1"}` with no key 998. -/
theorem chainErrorModesWitness :
    socks6RequestChain [(999, "1".toList)] [] = .panicked :=
  (chainErrorModes [(999, "1".toList)] [] "1".toList (by decide)).2.1
    1 (by decide) (by decide)

/-- C6 counterexample: at chain length 0 (`{999 ↦ "0", 998 ↦ "0"}`, the
link-key condition vacuous) the collected links are empty and
`Socks6Request::chain` with no static links returns `Ok(None)`, not the
claimed `Some(SocksChain{index, []})`. -/
theorem chainZeroLengthCounterexample :
    socks6RequestChain [(999, "0".toList), (998, "0".toList)] [] = .ok none
      ∧ ChainResult.ok none ≠ ChainResult.ok (some ⟨0, []⟩) := by
  exact ⟨by decide, by decide⟩

/-- C6 (amended): with key 999 holding the decimal link count, key 998
holding a decimal index, and keys `1000..1000+length` each holding a
parseable proxy-address string, `Socks6Request::chain` with no static
links returns `Some(SocksChain{index, links})` with the links in key
order when the length is at least 1; when the length is 0 the collected
links are empty and it returns `None`, exactly as it does when key 999
is absent with no static links. -/
theorem chainHappyPath :
    (∀ (m : List (Nat × List Char)) (ls ixs : List Char) (i : Nat)
        (links : List ProxyAddress),
        metadataGet m 999 = some ls → parseUsize ls = some links.length →
        metadataGet m 998 = some ixs → parseUsize ixs = some i →
        (∀ j, j < links.length →
          (metadataGet m ((1000 + j) % 65536)).bind parseProxyAddress
            = some (links.getD j ⟨[], 0, none⟩)) →
        1 ≤ links.length →
        socks6RequestChain m [] = .ok (some ⟨i, links⟩))
      ∧ (∀ (m : List (Nat × List Char)) (ls ixs : List Char) (i : Nat),
          metadataGet m 999 = some ls → parseUsize ls = some 0 →
          metadataGet m 998 = some ixs → parseUsize ixs = some i →
          socks6RequestChain m [] = .ok none)
      ∧ (∀ m, metadataGet m 999 = none → socks6RequestChain m [] = .ok none) := by
  refine ⟨?_, ?_, ?_⟩
  · intro m ls ixs i links h999 hlen h998 hidx hlinks hne
    have hcollect := collectChainLinks_some m links 1000 hlinks
    have hnotEmpty : links.isEmpty = false := by
      cases links with
      | nil => simp at hne
      | cons a as => rfl
    simp only [socks6RequestChain, h999, hlen, h998, hidx, hcollect, finishChain,
      List.isEmpty_nil, if_pos, hnotEmpty]
    rfl
  · intro m ls ixs i h999 hlen h998 hidx
    have hcollect : collectChainLinks m 1000 0 = some [] := rfl
    simp only [socks6RequestChain, h999, hlen, h998, hidx, hcollect, finishChain,
      List.isEmpty_nil]
    rfl
  · intro m h999
    simp only [socks6RequestChain, h999, finishChain, List.isEmpty_nil]
    rfl

/-- Witness for the chain happy path at the concrete metadata
`{999 ↦ "2", 998 ↦ "0", 1000 ↦ "a.example:1080", 1001 ↦ "b.example:1080"}`. -/
theorem chainHappyPathWitness :
    socks6RequestChain
        [(999, "2".toList), (998, "0".toList),
          (1000, "a.example:1080".toList), (1001, "b.example:1080".toList)] []
      = .ok (some ⟨0, [⟨"a.example".toList, 1080, none⟩,
          ⟨"b.example".toList, 1080, none⟩]⟩) :=
  chainHappyPath.1
    [(999, "2".toList), (998, "0".toList),
      (1000, "a.example:1080".toList), (1001, "b.example:1080".toList)]
    "2".toList "0".toList 0
    [⟨"a.example".toList, 1080, none⟩, ⟨"b.example".toList, 1080, none⟩]
    (by decide) (by decide) (by decide) (by decide) (by decide) (by decide)

/-- When the option loop returns `Ok`, it has consumed stream bytes in
step with the bytes-read counter, and it can only have stopped once the
counter reached at least the declared block length. -/
lemma readOptionsLoop_consumption :
    ∀ (bound : Nat) (s : List Nat), s.length ≤ bound →
      ∀ (optionsLength bytesRead : Nat) (acc res : List Socks6Option)
        (rest : List Nat),
        readOptionsLoop optionsLength bytesRead acc s = .ok (res, rest) →
        rest.length ≤ s.length
          ∧ optionsLength ≤ bytesRead + (s.length - rest.length) := by
  intro bound
  induction bound with
  | zero =>
    intro s hs L br acc res rest h
    rw [readOptionsLoop.eq_def] at h
    by_cases hbr : br < L
    · rw [if_pos hbr] at h
      rw [dif_neg (by omega : ¬ 4 ≤ s.length)] at h
      exact absurd h (by simp)
    · rw [if_neg hbr] at h
      injection h with h'
      injection h' with h1 h2
      subst h2
      exact ⟨le_refl _, by omega⟩
  | succ n ih =>
    intro s hs L br acc res rest h
    rw [readOptionsLoop.eq_def] at h
    by_cases hbr : br < L
    · rw [if_pos hbr] at h
      by_cases h4 : 4 ≤ s.length
      · rw [dif_pos h4] at h
        by_cases hu : fromBe16 (s.getD 2 0) (s.getD 3 0) < 4
        · rw [if_pos hu] at h
          exact absurd h (by simp)
        · rw [if_neg hu] at h
          by_cases hio : fromBe16 (s.getD 2 0) (s.getD 3 0) - 4 ≤ (s.drop 4).length
          · rw [if_pos hio] at h
            cases hdec : decodeOption (fromBe16 (s.getD 0 0) (s.getD 1 0))
                ((s.drop 4).take (fromBe16 (s.getD 2 0) (s.getD 3 0) - 4)) with
            | none =>
              simp only [hdec] at h
              exact absurd h (by simp)
            | some opt =>
              simp only [hdec] at h
              by_cases hov : br + fromBe16 (s.getD 2 0) (s.getD 3 0) < 65536
              · rw [if_pos hov] at h
                have hs2 : ((s.drop 4).drop
                    (fromBe16 (s.getD 2 0) (s.getD 3 0) - 4)).length ≤ n := by
                  simp only [List.length_drop]
                  omega
                have hrec := ih _ hs2 L _ _ _ _ h
                simp only [List.length_drop] at hrec hio
                constructor
                · omega
                · omega
              · rw [if_neg hov] at h
                exact absurd h (by simp)
          · rw [if_neg hio] at h
            exact absurd h (by simp)
      · rw [dif_neg h4] at h
        exact absurd h (by simp)
    · rw [if_neg hbr] at h
      injection h with h'
      injection h' with h1 h2
      subst h2
      exact ⟨le_refl _, by omega⟩

/-- C7 (amended): `read_options` returns the decoded option list exactly
when the bytes-read counter first reaches **or exceeds** the declared
options-block length: every `Ok` return has consumed at least the
declared number of option bytes.  Overshooting the declared length does
not produce an error (the code has no `MalformedOptions` outcome). -/
theorem readOptionsExitCondition (s : List Nat) (opts : List Socks6Option)
    (rest : List Nat) (h : readOptions s = .ok (opts, rest)) :
    fromBe16 (s.getD 0 0) (s.getD 1 0) ≤ (s.length - 2) - rest.length
      ∧ rest.length ≤ s.length - 2 := by
  unfold readOptions at h
  by_cases h2 : 2 ≤ s.length
  · rw [if_pos h2] at h
    have hrec := readOptionsLoop_consumption (s.drop 2).length (s.drop 2)
      (le_refl _) _ 0 [] opts rest h
    simp only [List.length_drop] at hrec
    omega
  · rw [if_neg h2] at h
    exact absurd h (by simp)

/-- Witness for the exit-condition theorem on the overshooting stream
with declared block length 2 and a single 8-byte option. -/
theorem readOptionsExitConditionWitness :
    fromBe16 (([0, 2, 0, 5, 0, 8, 1, 2, 3, 4] : List Nat).getD 0 0)
        (([0, 2, 0, 5, 0, 8, 1, 2, 3, 4] : List Nat).getD 1 0)
      ≤ (([0, 2, 0, 5, 0, 8, 1, 2, 3, 4] : List Nat).length - 2)
          - ([] : List Nat).length
      ∧ ([] : List Nat).length
          ≤ ([0, 2, 0, 5, 0, 8, 1, 2, 3, 4] : List Nat).length - 2 :=
  readOptionsExitCondition [0, 2, 0, 5, 0, 8, 1, 2, 3, 4]
    [.unrecognized 5 [1, 2, 3, 4]] []
    (by simp [readOptions, readOptionsLoop, decodeOption, fromBe16])

/-- C7 counterexample: with declared block length 2, a single option of
total length 8 makes the counter overshoot (8 > 2), yet `read_options`
returns the option successfully instead of a `MalformedOptions`
error. -/
theorem readOptionsOvershootCounterexample :
    readOptions [0, 2, 0, 5, 0, 8, 1, 2, 3, 4]
        = .ok ([.unrecognized 5 [1, 2, 3, 4]], [])
      ∧ (RunResult.ok ([Socks6Option.unrecognized 5 [1, 2, 3, 4]],
            ([] : List Nat))) ≠ .ioError
      ∧ (RunResult.ok ([Socks6Option.unrecognized 5 [1, 2, 3, 4]],
            ([] : List Nat))) ≠ .decodeError := by
  refine ⟨?_, by decide, by decide⟩
  simp [readOptions, readOptionsLoop, decodeOption, fromBe16]

/-- C8: for every address-type tag other than 0x01, 0x03, 0x04, both the
handler-side destination decoding and the client-side binding-address
decoding hit `unreachable!()` — a panic, not a returned
`MalformedAddress` error. -/
theorem unknownAddressTypePanics (atype : Nat) (s : List Nat)
    (h1 : atype ≠ 1) (h3 : atype ≠ 3) (h4 : atype ≠ 4) :
    handleRequestReadDstAddr atype s = .panicked
      ∧ connectReadBindingAddr atype s = .panicked := by
  constructor
  · simp [handleRequestReadDstAddr, h1, h3, h4]
  · simp [connectReadBindingAddr, h1, h3, h4]

/-- Witness for the unknown-address-type panic at tag 0x02. -/
theorem unknownAddressTypePanicsWitness :
    handleRequestReadDstAddr 2 [] = .panicked
      ∧ connectReadBindingAddr 2 [] = .panicked :=
  unknownAddressTypePanics 2 [] (by decide) (by decide) (by decide)

/-- C9: the 12 bytes of `write_reply` cannot be parsed under the
claimed layout — their byte 5 (the atyp position of the layout) is
0x00, never a valid address-type tag, because `write_reply` emits
padding and atyp directly after the code byte with no 2-byte binding
port before them.  The inline reply of `Socks6Handler::handle_request`,
in contrast, matches the claimed layout exactly (success code, zero
port, IPv4 placeholder, zero address, zero options length). -/
theorem writeReplyMissingFields :
    (∀ (code port atyp olen : Nat) (addr : List Nat),
        atyp = 1 ∨ atyp = 3 ∨ atyp = 4 → addr.length = 4 →
        claimedOperationReply code port atyp addr olen ≠ writeReplyBytes code)
      ∧ handleRequestReplyBytes = claimedOperationReply 0 0 1 [0, 0, 0, 0] 0 := by
  constructor
  · intro code port atyp olen addr hatyp haddr heq
    have h5 := congrArg (fun l => l.getD 5 999) heq
    simp only [claimedOperationReply, writeReplyBytes, be16, List.cons_append,
      List.nil_append, List.getD_cons_succ, List.getD_cons_zero] at h5
    rcases hatyp with h | h | h <;> omega
  · rfl

/-- Witness for the reply-layout theorem at reply code 0. -/
theorem writeReplyMissingFieldsWitness :
    claimedOperationReply 0 0 1 [0, 0, 0, 0] 0 ≠ writeReplyBytes 0
      ∧ handleRequestReplyBytes = claimedOperationReply 0 0 1 [0, 0, 0, 0] 0 :=
  ⟨writeReplyMissingFields.1 0 0 1 0 [0, 0, 0, 0] (Or.inl rfl) (by decide),
    writeReplyMissingFields.2⟩

/-- Under the headers-at-least-4 precondition the option loop never
reaches the `length - 4` underflow. -/
lemma readOptionsLoop_no_underflow :
    ∀ (bound : Nat) (s : List Nat), s.length ≤ bound →
      ∀ (optionsLength bytesRead : Nat) (acc : List Socks6Option),
        headersAtLeast4 optionsLength bytesRead s = true →
        readOptionsLoop optionsLength bytesRead acc s ≠ .underflowPanic := by
  intro bound
  induction bound with
  | zero =>
    intro s hs L br acc hok
    rw [readOptionsLoop.eq_def]
    by_cases hbr : br < L
    · rw [if_pos hbr, dif_neg (by omega : ¬ 4 ≤ s.length)]
      simp
    · rw [if_neg hbr]
      simp
  | succ n ih =>
    intro s hs L br acc hok
    rw [readOptionsLoop.eq_def]
    rw [headersAtLeast4.eq_def] at hok
    by_cases hbr : br < L
    · rw [if_pos hbr] at hok ⊢
      by_cases h4 : 4 ≤ s.length
      · rw [dif_pos h4] at hok ⊢
        by_cases hu : fromBe16 (s.getD 2 0) (s.getD 3 0) < 4
        · rw [if_pos hu] at hok
          exact absurd hok (by simp)
        · rw [if_neg hu] at hok ⊢
          by_cases hio : fromBe16 (s.getD 2 0) (s.getD 3 0) - 4 ≤ (s.drop 4).length
          · rw [if_pos hio] at hok ⊢
            cases hdec : decodeOption (fromBe16 (s.getD 0 0) (s.getD 1 0))
                ((s.drop 4).take (fromBe16 (s.getD 2 0) (s.getD 3 0) - 4)) with
            | none =>
              simp only [hdec]
              simp
            | some opt =>
              simp only [hdec] at hok ⊢
              by_cases hov : br + fromBe16 (s.getD 2 0) (s.getD 3 0) < 65536
              · rw [if_pos hov] at hok ⊢
                have hs2 : ((s.drop 4).drop
                    (fromBe16 (s.getD 2 0) (s.getD 3 0) - 4)).length ≤ n := by
                  simp only [List.length_drop]
                  omega
                exact ih _ hs2 L _ _ hok
              · rw [if_neg hov]
                simp
          · rw [if_neg hio]
            simp
      · rw [dif_neg h4]
        simp
    · rw [if_neg hbr]
      simp

/-- C10: `read_options` is not total on malformed length fields — a
declared block length of 4 followed by a header whose length field is 2
drives `length - 4` into `u16` underflow, so the run ends in neither an
`Ok` of the options read so far nor a `MalformedOptions`-style error;
and whenever every header the loop reads has a length field of at least
4 (`headersAtLeast4`), the underflow branch is unreachable. -/
theorem readOptionsUnderflow :
    readOptions [0, 4, 0, 9, 0, 2] = .underflowPanic
      ∧ ∀ (optionsLength bytesRead : Nat) (acc : List Socks6Option)
          (s : List Nat),
          headersAtLeast4 optionsLength bytesRead s = true →
          readOptionsLoop optionsLength bytesRead acc s ≠ .underflowPanic := by
  constructor
  · simp [readOptions, readOptionsLoop, fromBe16]
  · intro L br acc s hok
    exact readOptionsLoop_no_underflow s.length s (le_refl _) L br acc hok

/-- Witness for the underflow theorem: a concrete panic-free run under
the precondition. -/
theorem readOptionsUnderflowWitness :
    readOptionsLoop 8 0 [] [0, 5, 0, 8, 1, 2, 3, 4] ≠ .underflowPanic :=
  readOptionsUnderflow.2 8 0 [] [0, 5, 0, 8, 1, 2, 3, 4]
    (by simp [headersAtLeast4, decodeOption, fromBe16])
